import Mathlib

/-!
# Verification of the OpenClaw context-compactor repository

Shallow embedding of the repository's two setup scripts (`src/cli.js`,
`src/unnamed/part_000`) and of the compaction core described by the design
document (`spec.md`).  The compaction core (token estimator, boundary
splitter, summarizer round-trip, compaction engine) ships as `index.ts`,
which is copied by the setup scripts but is not part of the repository
sources; those components are modelled from the spec, as marked on each
definition.

Conventions: machine integers are `Nat`; the estimator ratio
`charsPerToken` (written as the integer `4` by both setup scripts) is
modelled as a `Nat`, with `⌈n / c⌉` realised as `(n + c - 1) / c`;
fallible summarization returns `Except`.
-/

namespace ContextCompactor

/-! ## Data model (spec §3) -/

/-- Modelled from the spec: the closed set of message roles (§3 Message). -/
inductive Role where
  | user
  | assistant
  | system
  | toolCall
  | toolResult
deriving DecidableEq, Repr

/-- Modelled from the spec: a transcript message (§3 Message).  The optional
`callId` is the metadata tool-call identifier linking a tool-call to its
tool-result; `isSummary` is the metadata tag marking a compaction artifact
(§3 SummaryMessage). -/
structure Message where
  role : Role
  content : String
  callId : Option Nat := none
  isSummary : Bool := false
deriving DecidableEq, Repr

/-- The recognized configuration options (§3 CompactionConfig).  The
`charsPerToken` ratio is modelled as a natural number (the value written by
both setup scripts is the integer `4`). -/
structure CompactionConfig where
  maxTokens : Nat
  keepRecentTokens : Nat
  summaryMaxTokens : Nat
  charsPerToken : Nat
deriving DecidableEq, Repr

/-! ## TokenEstimator (spec §4.1) -/

/-- Modelled from the spec: `estimate(text)` is
`ceil(characterCount / charsPerToken)`, minimum 1 for any non-empty text,
0 for empty (§4.1).  Ceiling division of naturals is `(n + c - 1) / c`. -/
def estimate (charsPerToken : Nat) (text : String) : Nat :=
  if text.length = 0 then 0
  else max 1 ((text.length + charsPerToken - 1) / charsPerToken)

/-- Per-message estimate: the estimate of the message content (the optional
per-message overhead constant of §4.1 defaults to 0). -/
def estimateMessage (cfg : CompactionConfig) (m : Message) : Nat :=
  estimate cfg.charsPerToken m.content

/-- Modelled from the spec: `estimateContext(messages)` is the sum of the
per-message estimates (§4.1). -/
def estimateContext (cfg : CompactionConfig) (msgs : List Message) : Nat :=
  (msgs.map (estimateMessage cfg)).sum

/-! ## BoundarySplitter (spec §4.2) -/

/-- Modelled from the spec: backward scan of §4.2 on the reversed message
list.  `acc` is the running estimate of the recent group gathered so far;
a message is moved into the recent group while the running estimate stays
within the budget.  Returns (rest of recent group, old group), both still
in reversed order. -/
def splitRevAux (cfg : CompactionConfig) (budget : Nat) (acc : Nat) :
    List Message → List Message × List Message
  | [] => ([], [])
  | m :: rest =>
    if acc + estimateMessage cfg m ≤ budget then
      let p := splitRevAux cfg budget (acc + estimateMessage cfg m) rest
      (m :: p.1, p.2)
    else
      ([], m :: rest)

/-- Modelled from the spec: the tentative boundary on the reversed list.
The most recent message is always kept whole in "recent", even when it
alone exceeds the budget (§4.2 soft budget).  Returns (old, recent) in
chronological order. -/
def splitTentativeRev (cfg : CompactionConfig) (budget : Nat) :
    List Message → List Message × List Message
  | [] => ([], [])
  | m :: rest =>
    let p := splitRevAux cfg budget (estimateMessage cfg m) rest
    (p.2.reverse, (m :: p.1).reverse)

/-- Tentative split of §4.2 before the pairing adjustment. -/
def splitTentative (cfg : CompactionConfig) (msgs : List Message) (budget : Nat) :
    List Message × List Message :=
  splitTentativeRev cfg budget msgs.reverse

/-- A tool-call message and the tool-result message answering it: roles
match and the metadata tool-call identifier is present and equal (§3). -/
def isPairedCallResult (c r : Message) : Bool :=
  c.role == Role.toolCall && r.role == Role.toolResult &&
    c.callId.isSome && c.callId == r.callId

/-- A metadata-linked tool pair is separated by the boundary: some message
of "old" and some message of "recent" form a tool-call/tool-result pair
(in either positional order). -/
def pairSplitAcross (old recent : List Message) : Bool :=
  old.any (fun a => recent.any
    (fun z => isPairedCallResult a z || isPairedCallResult z a))

/-- Modelled from the spec: the pairing adjustment of §4.2 — while the
boundary separates a metadata-linked tool-call/tool-result pair, extend
the boundary backward so the paired tool-call (and every message between
the two halves) joins "recent"; the result is the largest boundary at or
below the tentative one that splits no pair.  The backward extension is
taken one message at a time, which reaches exactly the paired tool-call
because the intervening boundaries still separate the same pair. -/
def adjustBoundaryAux (msgs : List Message) : Nat → Nat
  | 0 => 0
  | b + 1 =>
    if pairSplitAcross (msgs.take (b + 1)) (msgs.drop (b + 1)) then
      adjustBoundaryAux msgs b
    else b + 1

/-- The boundary index chosen by §4.2: the tentative backward-scan
boundary, corrected by the pairing adjustment. -/
def splitBoundary (cfg : CompactionConfig) (msgs : List Message) (budget : Nat) : Nat :=
  adjustBoundaryAux msgs (splitTentative cfg msgs budget).1.length

/-- Modelled from the spec: `split(messages, keepRecentTokens)` of §4.2 —
everything before the (pairing-adjusted) boundary is "old", everything at
or after it is "recent". -/
def split (cfg : CompactionConfig) (msgs : List Message) (budget : Nat) :
    List Message × List Message :=
  (msgs.take (splitBoundary cfg msgs budget), msgs.drop (splitBoundary cfg msgs budget))

/-! ## Summarizer interface (spec §4.3) -/

/-- Modelled from the spec: the `SummarizationError` failure of §4.3 (the
generation call errors, times out, or returns empty content). -/
inductive SummarizationError where
  | backendError
  | timedOut
  | emptyOutput
deriving DecidableEq, Repr

/-- Modelled from the spec: the summarization capability consumed by the
engine — it receives the old segment and the summary token cap and either
produces the summary text or fails (§4.3, §6 model invocation). -/
abbrev Summarizer := List Message → Nat → Except SummarizationError String

/-- Modelled from the spec: the synthesized SummaryMessage wrapping the
summarizer output — `role = system`, tagged as a compaction artifact (§3). -/
def mkSummaryMessage (text : String) : Message :=
  { role := Role.system, content := text, callId := none, isSummary := true }

/-! ## CompactionState (spec §3) -/

/-- One element of `statsHistory` (§3 CompactionState); `failed` flags the
stats entry recorded for a summarization failure (§4.4 step 3, §7). -/
structure StatsEntry where
  timestamp : Nat
  tokensBefore : Nat
  tokensAfter : Nat
  messagesSummarized : Nat
  failed : Bool
deriving DecidableEq, Repr

/-- Modelled from the spec: the per-session mutable record (§3). -/
structure CompactionState where
  lastCompactionTimestamp : Option Nat := none
  lastCompactionBoundaryIndex : Option Nat := none
  forceRecompact : Bool := false
  statsHistory : List StatsEntry := []
deriving DecidableEq, Repr

/-- Modelled from the spec: `forceRecompact()` command handler — sets the
flag, to be consumed by the next `process` call (§4.5). -/
def forceRecompactCommand (st : CompactionState) : CompactionState :=
  { st with forceRecompact := true }

/-! ## CompactionEngine (spec §4.4) -/

/-- Modelled from the spec: the decision rule of §4.4 — compact when the
force flag is set, or when the estimated total exceeds `maxTokens`. -/
def shouldCompact (cfg : CompactionConfig) (st : CompactionState)
    (ctx : List Message) : Bool :=
  st.forceRecompact || decide (cfg.maxTokens < estimateContext cfg ctx)

/-- The pair returned by `process` (§4.4 contract). -/
structure ProcessResult where
  newContext : List Message
  newState : CompactionState
deriving DecidableEq, Repr

/-- Modelled from the spec: `process(context, config, state)` of §4.4.
Decision rule first (force flag, else threshold); on compaction the flag is
cleared, the context is split, an empty "old" is a no-compaction
pass-through, a summarization failure falls back to the unmodified
original context with a failure stats entry, and a successful summary
yields `[summary] ++ recent` with a success stats entry.  `now` stands for
the wall-clock timestamp. -/
def process (summ : Summarizer) (now : Nat) (ctx : List Message)
    (cfg : CompactionConfig) (st : CompactionState) : ProcessResult :=
  let total := estimateContext cfg ctx
  if shouldCompact cfg st ctx then
    let st0 : CompactionState := { st with forceRecompact := false }
    let p := split cfg ctx cfg.keepRecentTokens
    if p.1.isEmpty then
      { newContext := ctx
        newState :=
          { st0 with statsHistory := st0.statsHistory ++ [⟨now, total, total, 0, false⟩] } }
    else
      match summ p.1 cfg.summaryMaxTokens with
      | Except.error _ =>
        { newContext := ctx
          newState :=
            { st0 with statsHistory := st0.statsHistory ++ [⟨now, total, total, 0, true⟩] } }
      | Except.ok text =>
        let newCtx := mkSummaryMessage text :: p.2
        { newContext := newCtx
          newState :=
            { st0 with
              lastCompactionTimestamp := some now
              lastCompactionBoundaryIndex := some p.1.length
              statsHistory := st0.statsHistory ++
                [⟨now, total, estimateContext cfg newCtx, p.1.length, false⟩] } }
  else
    { newContext := ctx
      newState :=
        { st with statsHistory := st.statsHistory ++ [⟨now, total, total, 0, false⟩] } }

/-- The largest single-message estimate occurring in a message list (used
to state the soft-budget bounds of §4.2). -/
def maxMessageEstimate (cfg : CompactionConfig) (msgs : List Message) : Nat :=
  (msgs.map (estimateMessage cfg)).foldr max 0

/-! ## The `openclaw.json` plugin section touched by the setup scripts

Only the parts of the host configuration file that the two setup scripts
read or write are modelled: `plugins.entries` and
`agents.defaults.model.primary`.  All other fields pass through both
scripts untouched. -/

/-- The `config` object of a `plugins.entries` entry, as written by both
setup scripts (`cli.js` lines 250-258, `part_000` lines 67-75). -/
structure PluginEntryConfig where
  maxTokens : Nat
  keepRecentTokens : Nat
  summaryMaxTokens : Nat
  charsPerToken : Nat
deriving DecidableEq, Repr

/-- A `plugins.entries` entry: `{ enabled, config }`. -/
structure PluginEntry where
  enabled : Bool
  config : PluginEntryConfig
deriving DecidableEq, Repr

/-- The `plugins` section; `entries` is absent (`none`) or an object,
modelled as an association list preserving insertion order. -/
structure PluginsSection where
  entries : Option (List (String × PluginEntry))
deriving DecidableEq, Repr

/-- The parsed `openclaw.json`, restricted to the fields the scripts
touch; `agentsPrimaryModel` stands for `agents.defaults.model.primary`
(`cli.js` line 51), `none` when any link of that chain is absent. -/
structure OpenClawConfig where
  plugins : Option PluginsSection
  agentsPrimaryModel : Option String
deriving DecidableEq, Repr

/-- `if (!config.plugins) config.plugins = {}` followed by
`if (!config.plugins.entries) config.plugins.entries = {}`
(`cli.js` lines 247-248, `part_000` lines 59-60). -/
def ensurePluginsEntries (c : OpenClawConfig) : OpenClawConfig :=
  let ps : PluginsSection :=
    match c.plugins with
    | none => ⟨some []⟩
    | some p => ⟨some (p.entries.getD [])⟩
  { c with plugins := some ps }

/-- Truthiness of `config.plugins.entries['context-compactor']` after the
structure has been initialized (`part_000` line 63): the key is present. -/
def hasCompactorEntry (c : OpenClawConfig) : Bool :=
  match c.plugins with
  | some ps =>
    match ps.entries with
    | some es => (es.find? (fun pr => pr.fst == "context-compactor")).isSome
    | none => false
  | none => false

/-- JavaScript object assignment on an ordered key/value object: replace
the value if the key exists, else append the key at the end. -/
def assocSet (l : List (String × PluginEntry)) (k : String) (v : PluginEntry) :
    List (String × PluginEntry) :=
  match l with
  | [] => [(k, v)]
  | (k', v') :: t => if k' == k then (k, v) :: t else (k', v') :: assocSet t k v

/-- `config.plugins.entries['context-compactor'] = entry` on an
already-initialized structure (`cli.js` line 250, `part_000` line 67). -/
def setCompactorEntry (c : OpenClawConfig) (e : PluginEntry) : OpenClawConfig :=
  match c.plugins with
  | some ps =>
    { c with plugins := some ⟨some (assocSet (ps.entries.getD []) "context-compactor" e)⟩ }
  | none => { c with plugins := some ⟨some [("context-compactor", e)]⟩ }

/-! ## The `part_000` setup script (config-update step, lines 53-88) -/

/-- The fixed defaults written by `part_000` (lines 67-75). -/
def part000DefaultEntry : PluginEntry :=
  ⟨true, ⟨8000, 2000, 1000, 4⟩⟩

/-- The config-update step of `part_000`'s `setup` (lines 53-88) on a
parsed existing `openclaw.json`: initialize the plugins structure, then
write the default entry only when `context-compactor` is not already
configured.  Returns the resulting file content (the original file when no
write is performed) and whether `writeFileSync` ran. -/
def part000Setup (file : OpenClawConfig) : OpenClawConfig × Bool :=
  let c := ensurePluginsEntries file
  if hasCompactorEntry c then (file, false)
  else (setCompactorEntry c part000DefaultEntry, true)

/-! ## The `cli.js` interactive setup (token-limit flow, lines 158-260) -/

/-- The behaviour classes of a trimmed interactive answer in `cli.js`:
`y`/`yes` (lowercased), a string of digits (`/^\d+$/`, with its parsed
value), or anything else. -/
inductive Answer where
  | yes
  | num (n : Nat)
  | other
deriving DecidableEq, Repr

/-- The three interactive answers consumed by the token-limit flow of
`cli.js` `setup`: line 166 (`Check your config for model info?`), line 183
(`Use N tokens?`), line 211 (`Enter maxTokens`). -/
structure SetupAnswers where
  checkConfig : Answer
  useDetected : Answer
  customTokens : Answer
deriving DecidableEq, Repr

/-- The record returned by `detectModelContextWindow` (`cli.js` lines
50-75): the model string and its known context window, `tokens = none`
standing for JavaScript `null`. -/
structure DetectedInfo where
  model : String
  tokens : Option Nat
deriving DecidableEq, Repr

/-- `knownContexts` of `cli.js` (lines 54-66), in insertion order. -/
def knownContexts : List (String × Nat) :=
  [("anthropic/claude-opus", 200000),
   ("anthropic/claude-sonnet", 200000),
   ("anthropic/claude-haiku", 200000),
   ("openai/gpt-4", 128000),
   ("openai/gpt-4-turbo", 128000),
   ("openai/gpt-3.5-turbo", 16000),
   ("mlx", 32000),
   ("ollama", 32000),
   ("llama", 32000),
   ("mistral", 32000),
   ("qwen", 32000)]

/-- `a.startsWith(b)` on character lists. -/
def listStartsWith : List Char → List Char → Bool
  | _, [] => true
  | [], _ :: _ => false
  | a :: as, b :: bs => a == b && listStartsWith as bs

/-- `a.includes(b)` on character lists: some suffix of `a` starts with `b`. -/
def listIncludes : List Char → List Char → Bool
  | [], pat => pat.isEmpty
  | a :: as, pat => listStartsWith (a :: as) pat || listIncludes as pat

/-- `hay.includes(pat)` on strings. -/
def strIncludes (hay pat : String) : Bool :=
  listIncludes hay.data pat.data

/-- `detectModelContextWindow` (`cli.js` lines 50-75): `null` when the
config names no primary model; otherwise the first `knownContexts` entry
whose pattern occurs (case-insensitively) in the model name, or a record
with `tokens = null` when no pattern matches. -/
def detectModelContextWindow (primaryModel : Option String) : Option DetectedInfo :=
  match primaryModel with
  | none => none
  | some model =>
    match knownContexts.find?
        (fun p => strIncludes model.toLower p.fst.toLower) with
    | some p => some ⟨model, some p.snd⟩
    | none => some ⟨model, none⟩

/-- JavaScript truthiness of `detectedInfo.tokens`: `null` and `0` are
falsy. -/
def jsTruthyTokens : Option Nat → Bool
  | none => false
  | some n => n != 0

/-- `Math.floor(detectedInfo.tokens * 0.8)` (`cli.js` line 179).  The
double nearest `0.8` is slightly above `4/5`, so for every `knownContexts`
value (all multiples of 5) the JavaScript result equals `t * 4 / 5`
exactly. -/
def suggestedTokens (t : Nat) : Nat :=
  t * 4 / 5

/-- The detection phase of `cli.js` `setup` (lines 166-195): starting from
`maxTokens = 16000`, optionally consult `detectModelContextWindow` and let
the user accept the suggestion or type a custom number.  Returns the
`maxTokens` and `detectedInfo` variables as they stand at line 198. -/
def cliAfterDetect (primaryModel : Option String) (a : SetupAnswers) :
    Nat × Option DetectedInfo :=
  if a.checkConfig = Answer.yes then
    match detectModelContextWindow primaryModel with
    | some info =>
      if jsTruthyTokens info.tokens then
        let s := suggestedTokens (info.tokens.getD 0)
        (match a.useDetected with
         | Answer.yes => s
         | Answer.num n => n
         | Answer.other => 16000,
         some info)
      else (16000, some info)
    | none => (16000, none)
  else (16000, none)

/-- The guard of the manual-entry branch,
`maxTokens === 8000 && (!detectedInfo || !detectedInfo.tokens)`
(`cli.js` line 198). -/
def manualEntryGuard (m : Nat) (d : Option DetectedInfo) : Bool :=
  m == 8000 &&
    !(match d with
      | some info => jsTruthyTokens info.tokens
      | none => false)

/-- The manual-entry phase (`cli.js` lines 198-217): when the guard holds,
take a typed number or default to 16000. -/
def cliAfterManual (primaryModel : Option String) (a : SetupAnswers) : Nat :=
  let p := cliAfterDetect primaryModel a
  if manualEntryGuard p.1 p.2 then
    match a.customTokens with
    | Answer.num n => n
    | _ => 16000
  else p.1

/-- The minimum enforcement (`cli.js` lines 220-231): raise any value
below `MIN_TOKENS = 16000` to 16000. -/
def cliFinalMaxTokens (primaryModel : Option String) (a : SetupAnswers) : Nat :=
  let m := cliAfterManual primaryModel a
  if m < 16000 then 16000 else m

/-- The plugin entry written to `openclaw.json` by `cli.js` (lines
233-258): derived `keepRecentTokens = Math.floor(maxTokens * 0.25)` and
`summaryMaxTokens = Math.floor(maxTokens * 0.125)` (both scalings by a
power of two, hence exactly `m / 4` and `m / 8` on naturals), and
`charsPerToken: 4`. -/
def cliSavedEntry (primaryModel : Option String) (a : SetupAnswers) : PluginEntry :=
  let m := cliFinalMaxTokens primaryModel a
  ⟨true, ⟨m, m / 4, m / 8, 4⟩⟩

/-! ## Splitter lemmas -/

theorem splitRevAux_append (cfg : CompactionConfig) (budget : Nat) :
    ∀ (l : List Message) (acc : Nat),
      (splitRevAux cfg budget acc l).1 ++ (splitRevAux cfg budget acc l).2 = l := by
  intro l
  induction l with
  | nil => intro acc; simp [splitRevAux]
  | cons m rest ih =>
    intro acc
    simp only [splitRevAux]
    by_cases h : acc + estimateMessage cfg m ≤ budget
    · simp only [if_pos h, List.cons_append, List.cons.injEq, true_and]
      exact ih (acc + estimateMessage cfg m)
    · simp [if_neg h]

theorem splitTentative_append (cfg : CompactionConfig) (msgs : List Message)
    (budget : Nat) :
    (splitTentative cfg msgs budget).1 ++ (splitTentative cfg msgs budget).2 = msgs := by
  unfold splitTentative
  cases hrev : msgs.reverse with
  | nil =>
    rw [List.reverse_eq_nil_iff] at hrev
    simp [hrev, splitTentativeRev]
  | cons m rest =>
    have : (m :: rest).reverse = msgs := by rw [← hrev, List.reverse_reverse]
    simp only [splitTentativeRev]
    rw [← List.reverse_append, List.cons_append, splitRevAux_append, this]

theorem split_append (cfg : CompactionConfig) (msgs : List Message) (budget : Nat) :
    (split cfg msgs budget).1 ++ (split cfg msgs budget).2 = msgs := by
  unfold split
  exact List.take_append_drop _ msgs

theorem adjustBoundaryAux_le (msgs : List Message) :
    ∀ b : Nat, adjustBoundaryAux msgs b ≤ b := by
  intro b
  induction b with
  | zero => simp [adjustBoundaryAux]
  | succ b ih =>
    simp only [adjustBoundaryAux]
    by_cases h : pairSplitAcross (msgs.take (b + 1)) (msgs.drop (b + 1))
    · rw [if_pos h]; omega
    · rw [if_neg h]

/-- The adjusted boundary separates no metadata-linked tool pair. -/
theorem adjustBoundaryAux_no_split (msgs : List Message) :
    ∀ b : Nat,
      pairSplitAcross (msgs.take (adjustBoundaryAux msgs b))
        (msgs.drop (adjustBoundaryAux msgs b)) = false := by
  intro b
  induction b with
  | zero => simp [adjustBoundaryAux, pairSplitAcross]
  | succ b ih =>
    simp only [adjustBoundaryAux]
    by_cases h : pairSplitAcross (msgs.take (b + 1)) (msgs.drop (b + 1))
    · rwa [if_pos h]
    · rw [if_neg h]
      exact Bool.eq_false_iff.mpr h

theorem splitBoundary_le (cfg : CompactionConfig) (msgs : List Message)
    (budget : Nat) : splitBoundary cfg msgs budget ≤ msgs.length := by
  unfold splitBoundary
  have h1 := adjustBoundaryAux_le msgs (splitTentative cfg msgs budget).1.length
  have h2 : (splitTentative cfg msgs budget).1.length ≤ msgs.length := by
    have := splitTentative_append cfg msgs budget
    calc (splitTentative cfg msgs budget).1.length
        ≤ (splitTentative cfg msgs budget).1.length
          + (splitTentative cfg msgs budget).2.length := by omega
      _ = msgs.length := by rw [← List.length_append, this]
  omega

theorem split_fst_length (cfg : CompactionConfig) (msgs : List Message)
    (budget : Nat) :
    (split cfg msgs budget).1.length = splitBoundary cfg msgs budget := by
  unfold split
  rw [List.length_take]
  exact min_eq_left (splitBoundary_le cfg msgs budget)

/-- C2: pairing invariant of spec §4.2/§8 — for every context, budget and
metadata-linked tool-call/tool-result pair (at any two positions of the
context, adjacent or not), `split` never places one message of the pair in
"old" and its paired message in "recent": both halves land on the same
side of the boundary. -/
theorem split_never_splits_pair (cfg : CompactionConfig) (msgs : List Message)
    (budget : Nat) (i j : Nat) (c r : Message)
    (hc : msgs[i]? = some c) (hr : msgs[j]? = some r)
    (hp : isPairedCallResult c r = true) :
    (i < (split cfg msgs budget).1.length ↔ j < (split cfg msgs budget).1.length) := by
  rw [split_fst_length]
  have hnosplit : pairSplitAcross (msgs.take (splitBoundary cfg msgs budget))
      (msgs.drop (splitBoundary cfg msgs budget)) = false :=
    adjustBoundaryAux_no_split msgs _
  set b := splitBoundary cfg msgs budget with hb
  constructor
  · intro hi
    by_contra hj
    have hcmem : c ∈ msgs.take b := by
      apply List.getElem?_mem (n := i)
      rw [List.getElem?_take, if_pos hi, hc]
    have hrmem : r ∈ msgs.drop b := by
      apply List.getElem?_mem (n := j - b)
      rw [List.getElem?_drop, Nat.add_sub_cancel' (by omega), hr]
    have : pairSplitAcross (msgs.take b) (msgs.drop b) = true := by
      unfold pairSplitAcross
      rw [List.any_eq_true]
      refine ⟨c, hcmem, ?_⟩
      rw [List.any_eq_true]
      exact ⟨r, hrmem, by rw [hp, Bool.true_or]⟩
    rw [this] at hnosplit
    cases hnosplit
  · intro hj
    by_contra hi
    have hrmem : r ∈ msgs.take b := by
      apply List.getElem?_mem (n := j)
      rw [List.getElem?_take, if_pos hj, hr]
    have hcmem : c ∈ msgs.drop b := by
      apply List.getElem?_mem (n := i - b)
      rw [List.getElem?_drop, Nat.add_sub_cancel' (by omega), hc]
    have : pairSplitAcross (msgs.take b) (msgs.drop b) = true := by
      unfold pairSplitAcross
      rw [List.any_eq_true]
      refine ⟨r, hrmem, ?_⟩
      rw [List.any_eq_true]
      exact ⟨c, hcmem, by rw [hp, Bool.or_true]⟩
    rw [this] at hnosplit
    cases hnosplit

/-! ## Soft-budget estimate bounds -/

theorem estimateContext_cons (cfg : CompactionConfig) (m : Message)
    (l : List Message) :
    estimateContext cfg (m :: l) = estimateMessage cfg m + estimateContext cfg l := by
  simp [estimateContext]

theorem estimateContext_reverse (cfg : CompactionConfig) (l : List Message) :
    estimateContext cfg l.reverse = estimateContext cfg l := by
  simp [estimateContext, List.map_reverse, List.sum_reverse]

theorem le_maxMessageEstimate (cfg : CompactionConfig) {m : Message}
    {msgs : List Message} (h : m ∈ msgs) :
    estimateMessage cfg m ≤ maxMessageEstimate cfg msgs := by
  induction msgs with
  | nil => cases h
  | cons x t ih =>
    rcases List.mem_cons.mp h with h' | h'
    · subst h'; simp [maxMessageEstimate]
    · calc estimateMessage cfg m ≤ maxMessageEstimate cfg t := ih h'
        _ ≤ maxMessageEstimate cfg (x :: t) := by simp [maxMessageEstimate]

/-- The backward scan keeps the running estimate within the budget: the
accumulated estimate plus everything the scan still accepts never exceeds
`max acc budget`. -/
theorem splitRevAux_acc_bound (cfg : CompactionConfig) (budget : Nat) :
    ∀ (l : List Message) (acc : Nat),
      acc + estimateContext cfg (splitRevAux cfg budget acc l).1 ≤ max acc budget := by
  intro l
  induction l with
  | nil => intro acc; simp [splitRevAux, estimateContext]
  | cons m rest ih =>
    intro acc
    simp only [splitRevAux]
    by_cases h : acc + estimateMessage cfg m ≤ budget
    · simp only [if_pos h]
      have hrec := ih (acc + estimateMessage cfg m)
      have hmax : max (acc + estimateMessage cfg m) budget = budget :=
        max_eq_right h
      rw [hmax] at hrec
      rw [estimateContext_cons]
      calc acc + (estimateMessage cfg m +
            estimateContext cfg (splitRevAux cfg budget (acc + estimateMessage cfg m) rest).1)
        _ = acc + estimateMessage cfg m +
            estimateContext cfg (splitRevAux cfg budget (acc + estimateMessage cfg m) rest).1 := by
            omega
        _ ≤ budget := hrec
        _ ≤ max acc budget := le_max_right _ _
    · simp only [if_neg h]
      simp [estimateContext]

/-- Soft budget for the tentative split: "recent" exceeds the budget by at
most the estimate of one message of the context (§4.2 edge case). -/
theorem splitTentative_recent_bound (cfg : CompactionConfig) (msgs : List Message)
    (budget : Nat) :
    estimateContext cfg (splitTentative cfg msgs budget).2
      ≤ budget + maxMessageEstimate cfg msgs := by
  unfold splitTentative
  cases hrev : msgs.reverse with
  | nil => simp [splitTentativeRev, estimateContext]
  | cons m rest =>
    have hm : m ∈ msgs := by
      rw [← List.mem_reverse, hrev]; exact List.mem_cons_self _ _
    have hmax := le_maxMessageEstimate cfg hm
    have hb := splitRevAux_acc_bound cfg budget rest (estimateMessage cfg m)
    simp only [splitTentativeRev]
    rw [estimateContext_reverse, estimateContext_cons]
    have : max (estimateMessage cfg m) budget
        ≤ budget + maxMessageEstimate cfg msgs := by
      apply max_le <;> omega
    omega

/-- When the pairing adjustment leaves the tentative boundary unchanged,
the split and the tentative split agree as pairs of lists. -/
theorem split_eq_tentative_of_no_adjust (cfg : CompactionConfig)
    (msgs : List Message) (budget : Nat)
    (h : splitBoundary cfg msgs budget = (splitTentative cfg msgs budget).1.length) :
    split cfg msgs budget = splitTentative cfg msgs budget := by
  have key : ∀ (o r : List Message), o ++ r = msgs →
      o.length = splitBoundary cfg msgs budget →
      (msgs.take (splitBoundary cfg msgs budget),
        msgs.drop (splitBoundary cfg msgs budget)) = (o, r) := by
    intro o r happ hlen
    subst happ
    rw [← hlen, List.take_left, List.drop_left]
  unfold split
  exact key _ _ (splitTentative_append cfg msgs budget) h.symm

/-! ## Engine lemmas -/

/-- Every `process` call leaves the force flag clear: a set flag is
consumed by the compaction path, and the pass-through path is only reached
with the flag already clear (§4.4 step 1, §4.5). -/
theorem process_forceRecompact_false (summ : Summarizer) (now : Nat)
    (ctx : List Message) (cfg : CompactionConfig) (st : CompactionState) :
    (process summ now ctx cfg st).newState.forceRecompact = false := by
  unfold process
  by_cases h : shouldCompact cfg st ctx
  · simp only [if_pos h]
    by_cases he : (split cfg ctx cfg.keepRecentTokens).1.isEmpty
    · simp [he]
    · simp only [Bool.not_eq_true] at he
      simp only [he, Bool.false_eq_true, if_false]
      cases summ (split cfg ctx cfg.keepRecentTokens).1 cfg.summaryMaxTokens <;> simp
  · simp only [Bool.not_eq_true] at h
    simp only [h, Bool.false_eq_true, if_false]
    have : st.forceRecompact = false := by
      unfold shouldCompact at h
      exact (Bool.or_eq_false_iff.mp h).1
    simpa using this

/-- When the decision rule does not fire, `process` passes the context
through unchanged and appends a plain stats entry (§4.4 step 3). -/
theorem process_pass_through (summ : Summarizer) (now : Nat)
    (ctx : List Message) (cfg : CompactionConfig) (st : CompactionState)
    (h : shouldCompact cfg st ctx = false) :
    (process summ now ctx cfg st).newContext = ctx ∧
    (process summ now ctx cfg st).newState.statsHistory
      = st.statsHistory ++
        [⟨now, estimateContext cfg ctx, estimateContext cfg ctx, 0, false⟩] := by
  unfold process
  simp [h]

/-! ## Claim theorems -/

/-- C3: for every context, config and state, if the summarization call made
by `process` fails with a `SummarizationError`, then `process` returns the
original context unchanged (no messages dropped or rewritten) and appends
an entry recording the failure to `statsHistory`. -/
theorem c3_fallback_safety (summ : Summarizer) (now : Nat)
    (ctx : List Message) (cfg : CompactionConfig) (st : CompactionState)
    (e : SummarizationError)
    (htrig : shouldCompact cfg st ctx = true)
    (hne : (split cfg ctx cfg.keepRecentTokens).1 ≠ [])
    (herr : summ (split cfg ctx cfg.keepRecentTokens).1 cfg.summaryMaxTokens
      = Except.error e) :
    (process summ now ctx cfg st).newContext = ctx ∧
    (process summ now ctx cfg st).newState.statsHistory
      = st.statsHistory ++
        [⟨now, estimateContext cfg ctx, estimateContext cfg ctx, 0, true⟩] := by
  unfold process
  have he : (split cfg ctx cfg.keepRecentTokens).1.isEmpty = false :=
    List.isEmpty_eq_false.mpr hne
  simp only [htrig, if_true, he, Bool.false_eq_true, if_false, herr]
  simp

/-- C6: with the force flag set, `process` takes the compaction path even
when the estimated total is at or below `maxTokens`, and the flag is clear
after the call; moreover repeated `forceRecompact()` command calls before
consumption are equivalent to a single call. -/
theorem c6_force_recompact (summ : Summarizer) (now : Nat) (ctx : List Message)
    (cfg : CompactionConfig) (st : CompactionState)
    (hforce : st.forceRecompact = true)
    (hbelow : estimateContext cfg ctx ≤ cfg.maxTokens) :
    shouldCompact cfg st ctx = true ∧
    (process summ now ctx cfg st).newState.forceRecompact = false ∧
    forceRecompactCommand (forceRecompactCommand st) = forceRecompactCommand st := by
  refine ⟨?_, process_forceRecompact_false _ _ _ _ _, ?_⟩
  · unfold shouldCompact
    rw [hforce]
    simp
  · simp [forceRecompactCommand]

/-- C4 (amended): when the first `process` call leaves a context whose
estimate is at most `maxTokens` — the spec's "common case" — a second
`process` call on its output, with no messages appended and the force flag
not reasserted, does not trigger a compaction: the decision rule evaluates
to pass-through and the context is returned unchanged. -/
theorem c4_idempotent_within_budget (summ : Summarizer) (now now2 : Nat)
    (ctx : List Message) (cfg : CompactionConfig) (st : CompactionState)
    (h : estimateContext cfg (process summ now ctx cfg st).newContext
      ≤ cfg.maxTokens) :
    shouldCompact cfg (process summ now ctx cfg st).newState
        (process summ now ctx cfg st).newContext = false ∧
    (process summ now2 (process summ now ctx cfg st).newContext cfg
        (process summ now ctx cfg st).newState).newContext
      = (process summ now ctx cfg st).newContext := by
  have hsc : shouldCompact cfg (process summ now ctx cfg st).newState
      (process summ now ctx cfg st).newContext = false := by
    unfold shouldCompact
    rw [process_forceRecompact_false]
    simp [Nat.not_lt.mpr h]
  exact ⟨hsc, (process_pass_through _ _ _ _ _ hsc).1⟩

/-- C7 (amended): whenever `process` performs a compaction with non-empty
"old" and the summarizer succeeds, the returned context is the single
summary message followed by the "recent" messages, which are a contiguous
suffix of the original context in chronological order; and whenever the
pairing adjustment of §4.2 leaves the tentative boundary unchanged, the
"recent" estimate exceeds `keepRecentTokens` by at most the size of one
whole message (the soft budget).  When the adjustment does move the
boundary, "recent" additionally absorbs the paired tool-call and every
message between the halves of the pair, and may exceed the budget by their
combined size. -/
theorem c7_compaction_shape (summ : Summarizer) (now : Nat) (ctx : List Message)
    (cfg : CompactionConfig) (st : CompactionState) (text : String)
    (htrig : shouldCompact cfg st ctx = true)
    (hne : (split cfg ctx cfg.keepRecentTokens).1 ≠ [])
    (hok : summ (split cfg ctx cfg.keepRecentTokens).1 cfg.summaryMaxTokens
      = Except.ok text) :
    (process summ now ctx cfg st).newContext
      = mkSummaryMessage text :: (split cfg ctx cfg.keepRecentTokens).2 ∧
    (split cfg ctx cfg.keepRecentTokens).1 ++ (split cfg ctx cfg.keepRecentTokens).2
      = ctx ∧
    (split cfg ctx cfg.keepRecentTokens
        = splitTentative cfg ctx cfg.keepRecentTokens →
      estimateContext cfg (split cfg ctx cfg.keepRecentTokens).2
        ≤ cfg.keepRecentTokens + maxMessageEstimate cfg ctx) := by
  refine ⟨?_, split_append cfg ctx cfg.keepRecentTokens, ?_⟩
  · unfold process
    have he : (split cfg ctx cfg.keepRecentTokens).1.isEmpty = false :=
      List.isEmpty_eq_false.mpr hne
    simp only [htrig, if_true, he, Bool.false_eq_true, if_false, hok]
  · intro h
    rw [h]
    exact splitTentative_recent_bound cfg ctx cfg.keepRecentTokens

/-- C1: every plugin config written to `openclaw.json` by the setup
scripts satisfies `keepRecentTokens < maxTokens` and
`keepRecentTokens + summaryMaxTokens < maxTokens` — for every run of the
`cli.js` interactive setup (any detected model, any answers) and for the
fixed defaults of `part_000`. -/
theorem c1_config_invariants (primaryModel : Option String) (a : SetupAnswers) :
    (cliSavedEntry primaryModel a).config.keepRecentTokens
        < (cliSavedEntry primaryModel a).config.maxTokens ∧
    (cliSavedEntry primaryModel a).config.keepRecentTokens
        + (cliSavedEntry primaryModel a).config.summaryMaxTokens
        < (cliSavedEntry primaryModel a).config.maxTokens ∧
    part000DefaultEntry.config.keepRecentTokens
        < part000DefaultEntry.config.maxTokens ∧
    part000DefaultEntry.config.keepRecentTokens
        + part000DefaultEntry.config.summaryMaxTokens
        < part000DefaultEntry.config.maxTokens := by
  have h16 : 16000 ≤ cliFinalMaxTokens primaryModel a := by
    unfold cliFinalMaxTokens
    by_cases h : cliAfterManual primaryModel a < 16000 <;> simp [h] <;> omega
  refine ⟨?_, ?_, by decide, by decide⟩ <;> simp only [cliSavedEntry] <;> omega

/-- C8: for every sequence of interactive answers and every model found in
the host config, the `maxTokens` value saved by the `cli.js` setup is at
least 16000 — any detected, suggested or typed value below the minimum is
raised before the derived budgets are computed and the entry is written. -/
theorem c8_min_tokens (primaryModel : Option String) (a : SetupAnswers) :
    16000 ≤ (cliSavedEntry primaryModel a).config.maxTokens := by
  have h16 : 16000 ≤ cliFinalMaxTokens primaryModel a := by
    unfold cliFinalMaxTokens
    by_cases h : cliAfterManual primaryModel a < 16000 <;> simp [h] <;> omega
  simpa only [cliSavedEntry] using h16

/-- C10: in the `cli.js` setup, the guard of the manual-entry branch,
`maxTokens === 8000 && (!detectedInfo || !detectedInfo.tokens)`, is false
for every model string and every sequence of answers: the branch is
unreachable. -/
theorem c10_manual_branch_unreachable (primaryModel : Option String)
    (a : SetupAnswers) :
    manualEntryGuard (cliAfterDetect primaryModel a).1
      (cliAfterDetect primaryModel a).2 = false := by
  unfold cliAfterDetect
  by_cases hc : a.checkConfig = Answer.yes
  · simp only [if_pos hc]
    cases hd : detectModelContextWindow primaryModel with
    | none => simp [manualEntryGuard]
    | some info =>
      by_cases ht : jsTruthyTokens info.tokens
      · simp only [ht, if_true]
        cases a.useDetected <;> simp [manualEntryGuard, ht]
      · simp only [Bool.not_eq_true] at ht
        simp [ht, manualEntryGuard]
  · simp [hc, manualEntryGuard]

/-! ## part_000 idempotence lemmas -/

theorem assocSet_find_self (l : List (String × PluginEntry)) (k : String)
    (v : PluginEntry) :
    ((assocSet l k v).find? (fun pr => pr.fst == k)).isSome = true := by
  induction l with
  | nil => simp [assocSet]
  | cons p t ih =>
    obtain ⟨k', v'⟩ := p
    simp only [assocSet]
    by_cases h : k' == k
    · simp [h]
    · rw [if_neg h]
      rw [List.find?_cons_of_neg _ (by simpa using h)]
      exact ih

theorem hasCompactorEntry_setCompactorEntry (c : OpenClawConfig)
    (e : PluginEntry) :
    hasCompactorEntry (setCompactorEntry c e) = true := by
  unfold setCompactorEntry hasCompactorEntry
  cases c.plugins with
  | none => simp
  | some ps => simpa using assocSet_find_self (ps.entries.getD []) _ e

theorem ensurePluginsEntries_setCompactorEntry (c : OpenClawConfig)
    (e : PluginEntry) :
    ensurePluginsEntries (setCompactorEntry c e) = setCompactorEntry c e := by
  unfold setCompactorEntry ensurePluginsEntries
  cases c.plugins <;> rfl

theorem hasCompactorEntry_ensure_of_has (c : OpenClawConfig)
    (h : hasCompactorEntry c = true) :
    hasCompactorEntry (ensurePluginsEntries c) = true := by
  obtain ⟨pl, am⟩ := c
  cases pl with
  | none => simp [hasCompactorEntry] at h
  | some ps =>
    obtain ⟨es⟩ := ps
    cases es with
    | none => simp [hasCompactorEntry] at h
    | some l => simpa [hasCompactorEntry, ensurePluginsEntries] using h

/-- C9: re-running the `part_000` setup is idempotent with respect to
`openclaw.json`: when the parsed config already contains
`plugins.entries['context-compactor']` no write is performed and the file
is returned unchanged; in particular a second run after any first run
performs no write and leaves the file unchanged. -/
theorem c9_part000_idempotent (file : OpenClawConfig) :
    (hasCompactorEntry file = true → part000Setup file = (file, false)) ∧
    part000Setup (part000Setup file).1 = ((part000Setup file).1, false) := by
  constructor
  · intro h
    unfold part000Setup
    rw [if_pos (hasCompactorEntry_ensure_of_has file h)]
  · by_cases h : hasCompactorEntry (ensurePluginsEntries file) = true
    · have hfix : part000Setup file = (file, false) := by
        unfold part000Setup
        rw [if_pos h]
      rw [hfix, hfix]
    · have hfst : (part000Setup file).1
          = setCompactorEntry (ensurePluginsEntries file) part000DefaultEntry := by
        unfold part000Setup
        rw [if_neg h]

      conv_lhs => rw [hfst]
      conv_rhs => rw [hfst]
      unfold part000Setup
      rw [ensurePluginsEntries_setCompactorEntry,
        if_pos (hasCompactorEntry_setCompactorEntry _ _)]

/-- C5: the token estimator is monotonic in character count: appending
text never lowers the estimate, for every positive `charsPerToken`
ratio. -/
theorem c5_estimate_monotone (c : Nat) (a b : String) (h : 0 < c) :
    estimate c a ≤ estimate c (a ++ b) := by
  unfold estimate
  by_cases ha : a.length = 0
  · simp [ha]
  · have hab : ¬(a ++ b).length = 0 := by
      rw [String.length_append]; omega
    rw [if_neg ha, if_neg hab, String.length_append]
    exact max_le_max le_rfl (Nat.div_le_div_right (by omega))

/-! ## Concrete fixtures, witnesses and counterexamples -/

theorem c5_estimate_monotone_witness :
    0 < 4 ∧ estimate 4 "abc" ≤ estimate 4 ("abc" ++ "d") :=
  ⟨by decide, c5_estimate_monotone 4 "abc" "d" (by decide)⟩

def c2Cfg : CompactionConfig := ⟨8, 2, 1, 4⟩

def c2Call : Message := ⟨Role.toolCall, "aaaaaaaaaaaa", some 1, false⟩

def c2Filler : Message := ⟨Role.user, "aaaaaaaaaaaa", none, false⟩

def c2Res : Message := ⟨Role.toolResult, "aaaaaaaaaaaa", some 1, false⟩

/-- A pair whose halves are not adjacent: a user message stands between
the tool-call and its tool-result. -/
def c2Ctx : List Message := [c2Call, c2Filler, c2Res]

theorem c2_split_pair_witness :
    c2Ctx[0]? = some c2Call ∧
    c2Ctx[2]? = some c2Res ∧
    isPairedCallResult c2Call c2Res = true ∧
    (split c2Cfg c2Ctx 2).1 = [] ∧
    (0 < (split c2Cfg c2Ctx 2).1.length ↔ 2 < (split c2Cfg c2Ctx 2).1.length) :=
  ⟨by decide, by decide, by decide, by decide,
    split_never_splits_pair c2Cfg c2Ctx 2 0 2 c2Call c2Res
      (by decide) (by decide) (by decide)⟩

def c3Summ : Summarizer := fun _ _ => Except.error SummarizationError.backendError

def c3Cfg : CompactionConfig := ⟨8, 2, 1, 4⟩

def c3Ctx : List Message :=
  [⟨Role.user, "aaaaaaaaaaaaaaaaaaaaaaaaaaaaaaaaaaaa", none, false⟩,
   ⟨Role.user, "aaaa", none, false⟩]

def c3St : CompactionState := ⟨none, none, false, []⟩

theorem c3_fallback_safety_witness :
    shouldCompact c3Cfg c3St c3Ctx = true ∧
    (split c3Cfg c3Ctx c3Cfg.keepRecentTokens).1 ≠ [] ∧
    ((process c3Summ 5 c3Ctx c3Cfg c3St).newContext = c3Ctx ∧
      (process c3Summ 5 c3Ctx c3Cfg c3St).newState.statsHistory
        = c3St.statsHistory ++
          [⟨5, estimateContext c3Cfg c3Ctx, estimateContext c3Cfg c3Ctx, 0, true⟩]) :=
  ⟨by decide, by decide,
    c3_fallback_safety c3Summ 5 c3Ctx c3Cfg c3St SummarizationError.backendError
      (by decide) (by decide) rfl⟩

def c6Summ : Summarizer := fun _ _ => Except.ok "x"

def c6Cfg : CompactionConfig := ⟨8000, 2000, 1000, 4⟩

def c6Ctx : List Message := [⟨Role.user, "aaaa", none, false⟩]

def c6St : CompactionState := ⟨none, none, true, []⟩

theorem c6_force_recompact_witness :
    c6St.forceRecompact = true ∧
    estimateContext c6Cfg c6Ctx ≤ c6Cfg.maxTokens ∧
    (shouldCompact c6Cfg c6St c6Ctx = true ∧
      (process c6Summ 0 c6Ctx c6Cfg c6St).newState.forceRecompact = false ∧
      forceRecompactCommand (forceRecompactCommand c6St) = forceRecompactCommand c6St) :=
  ⟨by decide, by decide,
    c6_force_recompact c6Summ 0 c6Ctx c6Cfg c6St (by decide) (by decide)⟩

def c4Summ : Summarizer := fun _ _ => Except.ok "ssss"

def c4Cfg : CompactionConfig := ⟨8, 2, 1, 4⟩

def c4Ctx : List Message :=
  [⟨Role.user, "aaaa", none, false⟩,
   ⟨Role.user, "aaaaaaaaaaaaaaaaaaaaaaaaaaaaaaaaaaaa", none, false⟩]

def c4St : CompactionState := ⟨none, none, false, []⟩

/-- The output of the first `process` call of the C4 counterexample. -/
def c4R1 : ProcessResult := process c4Summ 0 c4Ctx c4Cfg c4St

/-- C4 counterexample: after a compaction whose result still estimates
above `maxTokens` (one oversized recent message), the directly following
`process` call — no messages appended, force flag clear — triggers and
executes a second compaction (its stats entry summarizes 1 message). -/
theorem c4_idempotence_counterexample :
    c4R1.newState.forceRecompact = false ∧
    (c4R1.newState.statsHistory.getLast? = some ⟨0, 10, 10, 1, false⟩) ∧
    shouldCompact c4Cfg c4R1.newState c4R1.newContext = true ∧
    (process c4Summ 1 c4R1.newContext c4Cfg c4R1.newState).newState.statsHistory.getLast?
      = some ⟨1, 10, 10, 1, false⟩ := by decide

def c4WSumm : Summarizer := fun _ _ => Except.ok "ssss"

def c4WCfg : CompactionConfig := ⟨8, 2, 4, 4⟩

def c4WCtx : List Message :=
  [⟨Role.user, "aaaaaaaaaaaaaaaaaaaaaaaaaaaaaaaaaaaa", none, false⟩,
   ⟨Role.user, "aaaa", none, false⟩]

def c4WSt : CompactionState := ⟨none, none, false, []⟩

theorem c4_idempotent_within_budget_witness :
    estimateContext c4WCfg (process c4WSumm 0 c4WCtx c4WCfg c4WSt).newContext
      ≤ c4WCfg.maxTokens ∧
    (shouldCompact c4WCfg (process c4WSumm 0 c4WCtx c4WCfg c4WSt).newState
        (process c4WSumm 0 c4WCtx c4WCfg c4WSt).newContext = false ∧
      (process c4WSumm 1 (process c4WSumm 0 c4WCtx c4WCfg c4WSt).newContext c4WCfg
          (process c4WSumm 0 c4WCtx c4WCfg c4WSt).newState).newContext
        = (process c4WSumm 0 c4WCtx c4WCfg c4WSt).newContext) :=
  ⟨by decide, c4_idempotent_within_budget c4WSumm 0 1 c4WCtx c4WCfg c4WSt (by decide)⟩

def c7Summ : Summarizer := fun _ _ => Except.ok "s"

def c7Cfg : CompactionConfig := ⟨8, 2, 1, 4⟩

/-- A tool pair with an intervening user message near the end of the
context, preceded by an unrelated user message: the pairing adjustment
pulls the call and the intervening message into "recent". -/
def c7Ctx : List Message :=
  [⟨Role.user, "aaaaaaaaaaaa", none, false⟩,
   ⟨Role.toolCall, "aaaaaaaaaaaa", some 1, false⟩,
   ⟨Role.user, "aaaaaaaaaaaa", none, false⟩,
   ⟨Role.toolResult, "aaaaaaaaaaaa", some 1, false⟩]

def c7St : CompactionState := ⟨none, none, false, []⟩

/-- C7 counterexample: a compaction with non-empty "old" whose "recent"
partition (a tool-call, an intervening user message and the tool-result,
3 tokens each, pulled together by the pairing adjustment, total 9) exceeds
`keepRecentTokens = 2` by more than the size of the largest single message
of the context (3 tokens) — indeed by more than the size of two such
messages. -/
theorem c7_soft_budget_counterexample :
    shouldCompact c7Cfg c7St c7Ctx = true ∧
    (split c7Cfg c7Ctx c7Cfg.keepRecentTokens).1 ≠ [] ∧
    (process c7Summ 0 c7Ctx c7Cfg c7St).newContext
      = mkSummaryMessage "s" :: (split c7Cfg c7Ctx c7Cfg.keepRecentTokens).2 ∧
    c7Cfg.keepRecentTokens + maxMessageEstimate c7Cfg c7Ctx
      < estimateContext c7Cfg (split c7Cfg c7Ctx c7Cfg.keepRecentTokens).2 ∧
    c7Cfg.keepRecentTokens + 2 * maxMessageEstimate c7Cfg c7Ctx
      < estimateContext c7Cfg (split c7Cfg c7Ctx c7Cfg.keepRecentTokens).2 := by decide

def c7WSumm : Summarizer := fun _ _ => Except.ok "tt"

def c7WCfg : CompactionConfig := ⟨8, 2, 1, 4⟩

def c7WCtx : List Message :=
  [⟨Role.user, "aaaaaaaaaaaaaaaaaaaaaaaaaaaaaaaaaaaa", none, false⟩,
   ⟨Role.user, "aaaa", none, false⟩]

def c7WSt : CompactionState := ⟨none, none, false, []⟩

theorem c7_compaction_shape_witness :
    shouldCompact c7WCfg c7WSt c7WCtx = true ∧
    (split c7WCfg c7WCtx c7WCfg.keepRecentTokens).1 ≠ [] ∧
    split c7WCfg c7WCtx c7WCfg.keepRecentTokens
      = splitTentative c7WCfg c7WCtx c7WCfg.keepRecentTokens ∧
    ((process c7WSumm 0 c7WCtx c7WCfg c7WSt).newContext
        = mkSummaryMessage "tt" :: (split c7WCfg c7WCtx c7WCfg.keepRecentTokens).2 ∧
      (split c7WCfg c7WCtx c7WCfg.keepRecentTokens).1
          ++ (split c7WCfg c7WCtx c7WCfg.keepRecentTokens).2 = c7WCtx ∧
      (split c7WCfg c7WCtx c7WCfg.keepRecentTokens
          = splitTentative c7WCfg c7WCtx c7WCfg.keepRecentTokens →
        estimateContext c7WCfg (split c7WCfg c7WCtx c7WCfg.keepRecentTokens).2
          ≤ c7WCfg.keepRecentTokens + maxMessageEstimate c7WCfg c7WCtx)) :=
  ⟨by decide, by decide, by decide,
    c7_compaction_shape c7WSumm 0 c7WCtx c7WCfg c7WSt "tt" (by decide) (by decide) rfl⟩

def c9File : OpenClawConfig :=
  ⟨some ⟨some [("context-compactor", part000DefaultEntry)]⟩, none⟩

theorem c9_part000_idempotent_witness :
    hasCompactorEntry c9File = true ∧
    part000Setup c9File = (c9File, false) ∧
    part000Setup (part000Setup c9File).1 = ((part000Setup c9File).1, false) :=
  ⟨by decide, (c9_part000_idempotent c9File).1 (by decide),
    (c9_part000_idempotent c9File).2⟩

end ContextCompactor
